import Mathlib

/-!
Shallow embedding of the agenda_api dental-clinic scheduling backend
(src/src/routes/dashboard.routes.ts, src/src/routes/auth.routes.ts,
src/unnamed/part_001 = patient routes, src/src/services/whatsapp.service.ts).

Timestamps (JS `Date` values) are modelled as integers (milliseconds since
epoch); database rows are records in lists; Prisma `findUnique`/`findFirst`
become `List.find?`, `findMany`+predicates become `List.filter`/`List.any`,
and `update` on a unique id becomes a map that rewrites the matching row.
-/

/-- Appointment status enum, from `updateStatusSchema` in
src/src/routes/dashboard.routes.ts:
`z.enum(['agendada', 'confirmada', 'em_andamento', 'concluida', 'cancelada'])`.
The spec names these scheduled, confirmed, in_progress, completed, cancelled. -/
inductive Status where
  | agendada
  | confirmada
  | em_andamento
  | concluida
  | cancelada
deriving DecidableEq

/-- Patient row (Prisma model `patient`): fields used by the patient routes
in src/unnamed/part_001 (nome, email, telefone, dataNascimento, observacoes)
plus the soft-delete flag `ativo`. -/
structure Patient where
  id : Nat
  nome : String
  email : Option String
  telefone : Option String
  dataNascimento : Option Int
  observacoes : Option String
  ativo : Bool
deriving DecidableEq

/-- Dentist row (Prisma model `dentist`): fields used by
src/src/routes/dentist.routes.ts plus the soft-delete flag `ativo`. -/
structure Dentist where
  id : Nat
  nome : String
  cro : String
  especialidade : Option String
  telefone : Option String
  email : Option String
  ativo : Bool
deriving DecidableEq

/-- Appointment row (Prisma model `appointment`), as created and read by
src/src/routes/dashboard.routes.ts. -/
structure Appointment where
  id : Nat
  pacienteId : Nat
  dentistaId : Nat
  dataHoraInicio : Int
  dataHoraFim : Int
  status : Status
  observacoes : Option String
deriving DecidableEq

/-- StatusLog row (Prisma model `statusLog`) as written by the POST, PATCH
and DELETE appointment handlers: `{ consultaId, status, usuarioId }`. -/
structure StatusLog where
  consultaId : Nat
  status : Status
  usuarioId : Nat
deriving DecidableEq

/-- User row (Prisma model `user`) as used by src/src/routes/auth.routes.ts. -/
structure User where
  id : Nat
  nome : String
  email : String
  senhaHash : String
  perfil : String
  ativo : Bool
deriving DecidableEq

/-- Decoded JWT payload as seen by `request.user` in the handlers. Tokens
issued by POST /login are signed with payload `{ nome, perfil }` and the
standard claim `sub = user.id.toString()`; a `userId` field is absent from
those tokens, hence the `Option Nat`. -/
structure TokenPayload where
  nome : String
  perfil : String
  sub : Option String
  userId : Option Nat
deriving DecidableEq

/-- Payload of the token issued by POST /login in
src/src/routes/auth.routes.ts: `app.jwt.sign({nome, perfil}, {sub, expiresIn})`.
Only `nome` and `perfil` go into the payload body; the user id goes into the
`sub` claim, and no `userId` field is set. -/
def loginTokenPayload (u : User) : TokenPayload :=
  { nome := u.nome, perfil := u.perfil, sub := some (toString u.id), userId := none }

/-- `(request.user as any).userId || 1` from the status-log writes: the
`userId` field when present and truthy (a JS number is truthy iff nonzero),
and the default actor id 1 otherwise. -/
def resolveActor (tok : TokenPayload) : Nat :=
  match tok.userId with
  | some n => if n = 0 then 1 else n
  | none => 1

/-- Database state: the tables touched by the claims, plus the autoincrement
counter for appointment ids. -/
structure State where
  patients : List Patient
  dentists : List Dentist
  appointments : List Appointment
  statusLogs : List StatusLog
  nextAppointmentId : Nat
deriving DecidableEq

/-- Three-disjunct overlap test from the Prisma `OR` clause in the POST /
and PUT /:id conflict queries of src/src/routes/dashboard.routes.ts, with
`a, b` the candidate interval and `c, d` the stored
`dataHoraInicio, dataHoraFim`:
`(c <= a AND d > a) OR (c < b AND d >= b) OR (c >= a AND d <= b)`. -/
def overlapQ (a b c d : Int) : Bool :=
  (c ≤ a && d > a) || (c < b && d ≥ b) || (c ≥ a && d ≤ b)

/-- Half-open interval overlap formula from the spec (section 4.1):
intervals [a,b) and [c,d) overlap iff `a < d AND c < b`. -/
def overlapSpec (a b c d : Int) : Bool :=
  a < d && c < b

/-- Row filter of the conflict query: not the excluded appointment
(`id: { not: excludeId }`, update path only), same dentist, status not
cancelled, and the three-disjunct time overlap. -/
def matchesConflict (did : Nat) (a b : Int) (excl : Option Nat) (ap : Appointment) : Bool :=
  (match excl with
   | some e => decide (ap.id ≠ e)
   | none => true)
  && decide (ap.dentistaId = did)
  && decide (ap.status ≠ Status.cancelada)
  && overlapQ a b ap.dataHoraInicio ap.dataHoraFim

/-- Conflict checker used by both the create (excl = none) and update
(excl = some id) paths: `prisma.appointment.findFirst` returns a row iff
some row matches, so the boolean outcome is `List.any`. -/
def hasConflict (appts : List Appointment) (did : Nat) (a b : Int) (excl : Option Nat) : Bool :=
  appts.any (matchesConflict did a b excl)

/-- Spec-side conflict checker, following the words of spec section 4.1:
query all appointments for the dentist whose status is not cancelled
(excluding the given appointment on the update path) and report a conflict
iff any satisfies the single overlap formula `a < d AND c < b`. -/
def hasConflictSpec (appts : List Appointment) (did : Nat) (a b : Int) (excl : Option Nat) : Bool :=
  appts.any (fun ap =>
    (match excl with
     | some e => decide (ap.id ≠ e)
     | none => true)
    && decide (ap.dentistaId = did)
    && decide (ap.status ≠ Status.cancelada)
    && overlapSpec a b ap.dataHoraInicio ap.dataHoraFim)

theorem overlapSpec_imp_overlapQ (a b c d : Int) (h : overlapSpec a b c d = true) :
    overlapQ a b c d = true := by
  simp only [overlapSpec, Bool.and_eq_true, decide_eq_true_eq] at h
  simp only [overlapQ, Bool.and_eq_true, Bool.or_eq_true, decide_eq_true_eq]
  omega

theorem overlapQ_eq_overlapSpec (a b c d : Int) (hab : a < b) (hcd : c < d) :
    overlapQ a b c d = overlapSpec a b c d := by
  have h1 : (overlapQ a b c d = true) ↔ (a < d ∧ c < b) := by
    simp only [overlapQ, Bool.and_eq_true, Bool.or_eq_true, decide_eq_true_eq]
    omega
  have h2 : (overlapSpec a b c d = true) ↔ (a < d ∧ c < b) := by
    simp only [overlapSpec, Bool.and_eq_true, decide_eq_true_eq]
  have h3 : (overlapQ a b c d = true) ↔ (overlapSpec a b c d = true) := h1.trans h2.symm
  cases hq : overlapQ a b c d <;> cases hs : overlapSpec a b c d <;> simp_all

/-- Outcome of POST /appointments as relevant to the state model: 404 with a
message, 400 conflict with a message, or 201 with the new appointment id. -/
inductive CreateOutcome where
  | notFound (msg : String)
  | conflict (msg : String)
  | created (appointmentId : Nat)
deriving DecidableEq

/-- Result of `patient.findUnique` followed by the `!patient || !patient.ativo`
guard in the POST /appointments handler. -/
def patientActive (s : State) (pid : Nat) : Bool :=
  match s.patients.find? (fun p => p.id == pid) with
  | none => false
  | some p => p.ativo

/-- Result of `dentist.findUnique` followed by the `!dentist || !dentist.ativo`
guard in the POST /appointments handler. -/
def dentistActive (s : State) (did : Nat) : Bool :=
  match s.dentists.find? (fun d => d.id == did) with
  | none => false
  | some d => d.ativo

/-- Modelled from the spec: the Prisma schema (prisma/schema.prisma) is not
among the provided sources, and `appointment.create` in the POST handler
passes no `status` field, relying on the schema default. The spec says
appointments are created in the "scheduled" state, so the default is
modelled as `agendada`. -/
def defaultAppointmentStatus : Status := Status.agendada

/-- POST /appointments handler from src/src/routes/dashboard.routes.ts
(authenticated path): check patient exists and is active, check dentist
exists and is active, run the conflict query, then create the appointment
row (autoincremented id, default status) and append one StatusLog row with
status `agendada` and actor `userId || 1`. -/
def createAppointment (s : State) (pacienteId dentistaId : Nat) (inicio fim : Int)
    (obs : Option String) (tok : TokenPayload) : CreateOutcome × State :=
  if !patientActive s pacienteId then
    (CreateOutcome.notFound "Paciente não encontrado", s)
  else if !dentistActive s dentistaId then
    (CreateOutcome.notFound "Dentista não encontrado", s)
  else if hasConflict s.appointments dentistaId inicio fim none then
    (CreateOutcome.conflict "Dentista já possui consulta neste horário", s)
  else
    let apt : Appointment :=
      { id := s.nextAppointmentId, pacienteId := pacienteId, dentistaId := dentistaId,
        dataHoraInicio := inicio, dataHoraFim := fim,
        status := defaultAppointmentStatus, observacoes := obs }
    let log : StatusLog :=
      { consultaId := s.nextAppointmentId, status := Status.agendada,
        usuarioId := resolveActor tok }
    (CreateOutcome.created s.nextAppointmentId,
      { s with appointments := s.appointments ++ [apt],
               statusLogs := s.statusLogs ++ [log],
               nextAppointmentId := s.nextAppointmentId + 1 })

/-- PATCH /appointments/:id/status handler (authenticated path): 404 when the
appointment is missing, otherwise set the status (any value of the enum is
accepted, with no transition restriction), append one StatusLog row, and
return the updated row. -/
def setStatusOp (s : State) (id : Nat) (st : Status) (tok : TokenPayload) :
    Option Appointment × State :=
  match s.appointments.find? (fun a => a.id == id) with
  | none => (none, s)
  | some apt =>
    (some { apt with status := st },
      { s with
        appointments := s.appointments.map
          (fun a => if a.id == id then { a with status := st } else a),
        statusLogs := s.statusLogs ++ [⟨id, st, resolveActor tok⟩] })

/-- DELETE /appointments/:id handler (authenticated path): 404 when the
appointment is missing; otherwise mark the row `cancelada` instead of
deleting it, and append one StatusLog row with status `cancelada`. The Bool
is `true` on success. -/
def cancelOp (s : State) (id : Nat) (tok : TokenPayload) : Bool × State :=
  match s.appointments.find? (fun a => a.id == id) with
  | none => (false, s)
  | some _ =>
    (true,
      { s with
        appointments := s.appointments.map
          (fun a => if a.id == id then { a with status := Status.cancelada } else a),
        statusLogs := s.statusLogs ++ [⟨id, Status.cancelada, resolveActor tok⟩] })

/-- Body of PUT /appointments/:id after zod validation
(`updateAppointmentSchema`): every field optional. -/
structure UpdateData where
  pacienteId : Option Nat
  dentistaId : Option Nat
  dataHoraInicio : Option Int
  dataHoraFim : Option Int
  observacoes : Option String
deriving DecidableEq

/-- JS truthiness of an optional number: present and nonzero. -/
def numTruthy (o : Option Nat) : Bool :=
  match o with
  | some n => decide (n ≠ 0)
  | none => false

/-- JS `data.dentistaId || appointment.dentistaId`: the number when present
and truthy (nonzero), the fallback otherwise. -/
def orElseNum (o : Option Nat) (fallback : Nat) : Nat :=
  match o with
  | some n => if n = 0 then fallback else n
  | none => fallback

/-- Guard `if (data.dataHoraInicio || data.dataHoraFim || data.dentistaId)`
of the PUT handler. The two dates are `Date` objects after zod coercion, so
they are truthy exactly when present; `dentistaId` is a number, truthy when
present and nonzero. -/
def shouldCheckConflict (d : UpdateData) : Bool :=
  d.dataHoraInicio.isSome || d.dataHoraFim.isSome || numTruthy d.dentistaId

/-- Effect of `prisma.appointment.update({ where: { id }, data })` on the
matching row: present fields overwrite, absent (undefined) fields are left
unchanged. -/
def applyUpdate (d : UpdateData) (a : Appointment) : Appointment :=
  { a with
    pacienteId := d.pacienteId.getD a.pacienteId,
    dentistaId := d.dentistaId.getD a.dentistaId,
    dataHoraInicio := d.dataHoraInicio.getD a.dataHoraInicio,
    dataHoraFim := d.dataHoraFim.getD a.dataHoraFim,
    observacoes := match d.observacoes with
      | some o => some o
      | none => a.observacoes }

/-- Outcome of PUT /appointments/:id: 404, 400 conflict, or the updated row. -/
inductive UpdateOutcome where
  | notFound
  | conflict
  | ok (apt : Appointment)
deriving DecidableEq

/-- PUT /appointments/:id handler (authenticated path): 404 when missing;
when any of dentist/start/end is (truthily) supplied, re-run the conflict
query with the merged values, excluding this appointment; then apply the
partial update. No patient or dentist existence/activity check is
performed. -/
def updateOp (s : State) (id : Nat) (d : UpdateData) : UpdateOutcome × State :=
  match s.appointments.find? (fun a => a.id == id) with
  | none => (UpdateOutcome.notFound, s)
  | some apt =>
    let did := orElseNum d.dentistaId apt.dentistaId
    let inicio := d.dataHoraInicio.getD apt.dataHoraInicio
    let fim := d.dataHoraFim.getD apt.dataHoraFim
    if shouldCheckConflict d && hasConflict s.appointments did inicio fim (some id) then
      (UpdateOutcome.conflict, s)
    else
      (UpdateOutcome.ok (applyUpdate d apt),
        { s with appointments := (s.appointments.map
            (fun a => if a.id == id then applyUpdate d a else a)) })

/-- Outcome of GET /patients/:id. -/
inductive GetPatientOutcome where
  | notFound
  | ok (p : Patient)
deriving DecidableEq

/-- GET /patients/:id handler from src/unnamed/part_001 (authenticated path):
`findUnique`, then 404 when the row is missing or `!patient.ativo`. -/
def getPatientOp (s : State) (id : Nat) : GetPatientOutcome :=
  match s.patients.find? (fun p => p.id == id) with
  | none => GetPatientOutcome.notFound
  | some p => if p.ativo then GetPatientOutcome.ok p else GetPatientOutcome.notFound

/-- DELETE /patients/:id handler from src/unnamed/part_001 (authenticated
path): 404 when the row is missing; otherwise a soft delete that sets only
`ativo := false`. The Bool is `true` on success. -/
def deletePatientOp (s : State) (id : Nat) : Bool × State :=
  match s.patients.find? (fun p => p.id == id) with
  | none => (false, s)
  | some _ =>
    (true, { s with patients := (s.patients.map
        (fun p => if p.id == id then { p with ativo := false } else p)) })

/-- Row returned by GET /appointments/:id: the appointment with its included
`paciente`, `dentista` and `logs` relations. Prisma `include` follows the
foreign keys with no filter on `ativo`. -/
structure AppointmentView where
  appointment : Appointment
  paciente : Option Patient
  dentista : Option Dentist
  logs : List StatusLog
deriving DecidableEq

/-- GET /appointments/:id handler (authenticated path): `none` models the
404 branch. -/
def getAppointmentOp (s : State) (id : Nat) : Option AppointmentView :=
  match s.appointments.find? (fun a => a.id == id) with
  | none => none
  | some apt =>
    some { appointment := apt,
           paciente := s.patients.find? (fun p => p.id == apt.pacienteId),
           dentista := s.dentists.find? (fun den => den.id == apt.dentistaId),
           logs := s.statusLogs.filter (fun lg => lg.consultaId == apt.id) }

/-- Number of StatusLog rows for a given appointment id. -/
def logCount (logs : List StatusLog) (id : Nat) : Nat :=
  (logs.filter (fun lg => lg.consultaId == id)).length

/-- Two appointment rows are in violation when they belong to the same
dentist, neither is cancelled, and their half-open intervals overlap under
the spec formula `a < d AND c < b`. -/
def overlapPair (x y : Appointment) : Bool :=
  decide (x.dentistaId = y.dentistaId)
  && decide (x.status ≠ Status.cancelada)
  && decide (y.status ≠ Status.cancelada)
  && overlapSpec x.dataHoraInicio x.dataHoraFim y.dataHoraInicio y.dataHoraFim

/-- Conflict-freedom invariant over a table of appointment rows: no two rows
with distinct ids are in violation. -/
def invariantB (l : List Appointment) : Bool :=
  l.all (fun x => l.all (fun y => x.id == y.id || !overlapPair x y))

/-- Digits of a string, the JS `phone.replace(/\D/g, '')` of
WhatsAppService.formatPhoneNumber. -/
def digitsOf (s : String) : List Char :=
  s.data.filter (fun ch => ch.isDigit)

/-- JS `cleaned.startsWith('55')` on the digit list. -/
def beginsWith55 : List Char → Bool
  | '5' :: '5' :: _ => true
  | _ => false

/-- WhatsAppService.formatPhoneNumber from
src/src/services/whatsapp.service.ts: strip non-digit characters, then
prepend the country code 55 unless the cleaned string already starts
with 55. -/
def formatPhoneNumber (phone : String) : String :=
  let cleaned := digitsOf phone
  if beginsWith55 cleaned then String.mk cleaned
  else String.mk ('5' :: '5' :: cleaned)

theorem overlapSpec_comm (a b c d : Int) : overlapSpec a b c d = overlapSpec c d a b := by
  simp only [overlapSpec]
  exact Bool.and_comm _ _

theorem invariantB_iff (l : List Appointment) :
    invariantB l = true ↔
      ∀ x ∈ l, ∀ y ∈ l, x.id ≠ y.id → overlapPair x y = false := by
  simp only [invariantB, List.all_eq_true, Bool.or_eq_true, beq_iff_eq, Bool.not_eq_true']
  constructor
  · intro h x hx y hy hne
    rcases h x hx y hy with h1 | h1
    · exact absurd h1 hne
    · exact h1
  · intro h x hx y hy
    by_cases he : x.id = y.id
    · exact Or.inl he
    · exact Or.inr (h x hx y hy he)

/-- Claim C1: for every dentist, candidate interval [a,b) with a < b, and
optional excluded appointment id, the conflict query used by both the
create and update handlers returns true iff some stored appointment of that
dentist, with status other than cancelada and id different from the
excluded one, has a valid interval [c,d) with a < d and c < b. The
three-disjunct Prisma query is equivalent to the single half-open overlap
formula whenever the stored intervals are valid, so intervals that merely
touch never conflict. -/
theorem conflict_query_equiv_overlap_formula (appts : List Appointment) (did : Nat)
    (a b : Int) (excl : Option Nat) (hab : a < b)
    (hvalid : ∀ ap ∈ appts, ap.dataHoraInicio < ap.dataHoraFim) :
    hasConflict appts did a b excl = true ↔
      ∃ ap ∈ appts,
        (∀ e, excl = some e → ap.id ≠ e) ∧
        ap.dentistaId = did ∧
        ap.status ≠ Status.cancelada ∧
        ap.dataHoraInicio < ap.dataHoraFim ∧
        a < ap.dataHoraFim ∧ ap.dataHoraInicio < b := by
  simp only [hasConflict, List.any_eq_true, matchesConflict, Bool.and_eq_true,
    decide_eq_true_eq]
  constructor
  · rintro ⟨ap, hmem, ⟨⟨hex, hdid⟩, hst⟩, hov⟩
    have hv := hvalid ap hmem
    rw [overlapQ_eq_overlapSpec a b ap.dataHoraInicio ap.dataHoraFim hab hv] at hov
    simp only [overlapSpec, Bool.and_eq_true, decide_eq_true_eq] at hov
    refine ⟨ap, hmem, ?_, hdid, hst, hv, hov.1, hov.2⟩
    intro e he
    rw [he] at hex
    simpa using hex
  · rintro ⟨ap, hmem, hex, hdid, hst, hv, h1, h2⟩
    refine ⟨ap, hmem, ⟨⟨?_, hdid⟩, hst⟩, ?_⟩
    · cases excl with
      | none => simp
      | some e => simpa using hex e rfl
    · rw [overlapQ_eq_overlapSpec a b ap.dataHoraInicio ap.dataHoraFim hab hv]
      simp only [overlapSpec, Bool.and_eq_true, decide_eq_true_eq]
      exact ⟨h1, h2⟩

/-- Witness for C1: a concrete instance of the equivalence. One stored
appointment [0,10) for dentist 1; the candidate [10,20) merely touches it,
and indeed neither side of the proved equivalence holds. -/
theorem conflict_query_equiv_overlap_formula_witness :
    hasConflict [⟨1, 1, 1, 0, 10, Status.agendada, none⟩] 1 10 20 none = true ↔
      ∃ ap ∈ [(⟨1, 1, 1, 0, 10, Status.agendada, none⟩ : Appointment)],
        (∀ e, (none : Option Nat) = some e → ap.id ≠ e) ∧
        ap.dentistaId = 1 ∧
        ap.status ≠ Status.cancelada ∧
        ap.dataHoraInicio < ap.dataHoraFim ∧
        (10:Int) < ap.dataHoraFim ∧ ap.dataHoraInicio < 20 :=
  conflict_query_equiv_overlap_formula
    [⟨1, 1, 1, 0, 10, Status.agendada, none⟩] 1 10 20 none
    (by decide) (by decide)

/-- Counterexample for C3: with a stored valid appointment [5,10) and the
degenerate candidate [5,5) (end = start), the code conflict query reports a
conflict (first disjunct: c <= a and d > a) while the spec overlap formula
`a < d AND c < b` is false, so the checker does not return exactly the
value of the overlap formula on degenerate inputs. -/
theorem conflict_checker_degenerate_counterexample :
    hasConflict [⟨1, 1, 1, 5, 10, Status.agendada, none⟩] 1 5 5 none = true
    ∧ hasConflictSpec [⟨1, 1, 1, 5, 10, Status.agendada, none⟩] 1 5 5 none = false := by
  constructor <;> decide

/-- Claim C3 (amended): for a degenerate or inverted candidate interval
(end <= start) the conflict checker is a total function (it cannot crash)
and evaluates the three-disjunct query as given; this over-approximates the
overlap formula: whenever some existing non-cancelled appointment of the
dentist satisfies `a < d AND c < b`, the checker reports a conflict, but it
may also report conflicts on rows where the overlap formula is false. -/
theorem conflict_checker_degenerate_sound (appts : List Appointment) (did : Nat)
    (a b : Int) (excl : Option Nat) (_hba : b ≤ a)
    (h : hasConflictSpec appts did a b excl = true) :
    hasConflict appts did a b excl = true := by
  simp only [hasConflictSpec, List.any_eq_true, Bool.and_eq_true] at h
  obtain ⟨ap, hmem, ⟨⟨hex, hdid⟩, hst⟩, hov⟩ := h
  simp only [hasConflict, List.any_eq_true, matchesConflict, Bool.and_eq_true]
  exact ⟨ap, hmem, ⟨⟨hex, hdid⟩, hst⟩,
    overlapSpec_imp_overlapQ a b ap.dataHoraInicio ap.dataHoraFim hov⟩

/-- Witness for the amended C3: degenerate candidate [5,5) strictly inside a
stored [0,10): the overlap formula holds and the checker indeed reports a
conflict. -/
theorem conflict_checker_degenerate_sound_witness :
    hasConflict [⟨1, 1, 1, 0, 10, Status.agendada, none⟩] 1 5 5 none = true :=
  conflict_checker_degenerate_sound [⟨1, 1, 1, 0, 10, Status.agendada, none⟩] 1 5 5 none
    (by decide) (by decide)

/-- Claim C10: formatPhoneNumber removes every non-digit character and
prepends the country code 55 exactly when the cleaned digit string does not
already start with 55; in particular the two examples from the spec, and
the result always consists of digits only. -/
theorem formatPhoneNumber_correct (s : String) :
    formatPhoneNumber "(11) 98888-7777" = "5511988887777"
    ∧ formatPhoneNumber "5511988887777" = "5511988887777"
    ∧ (formatPhoneNumber s).data.all (fun ch => ch.isDigit) = true
    ∧ (beginsWith55 (digitsOf s) = true → formatPhoneNumber s = String.mk (digitsOf s))
    ∧ (beginsWith55 (digitsOf s) = false →
        formatPhoneNumber s = String.mk ('5' :: '5' :: digitsOf s)) := by
  refine ⟨by decide, by decide, ?_, ?_, ?_⟩
  · have hdig : ∀ ch ∈ digitsOf s, ch.isDigit = true := by
      intro ch hch
      exact (List.mem_filter.mp hch).2
    cases hb : beginsWith55 (digitsOf s) with
    | true =>
      simp only [formatPhoneNumber, hb, if_true]
      exact List.all_eq_true.mpr hdig
    | false =>
      simp only [formatPhoneNumber, hb, Bool.false_eq_true, if_false]
      refine List.all_eq_true.mpr ?_
      intro ch hch
      simp only [List.mem_cons] at hch
      rcases hch with rfl | rfl | hch
      · decide
      · decide
      · exact hdig ch hch
  · intro h
    simp [formatPhoneNumber, h]
  · intro h
    simp [formatPhoneNumber, h]

/-- Witness for C10: a concrete input with no 55 markers gets the country
code prepended. -/
theorem formatPhoneNumber_correct_witness :
    formatPhoneNumber "abc" = String.mk ('5' :: '5' :: digitsOf "abc") :=
  (formatPhoneNumber_correct "abc").2.2.2.2 (by decide)

/-- Claim C5: PATCH /appointments/:id/status with any status of the allowed
enum fails with NotFound and writes nothing when the appointment is
missing; otherwise, regardless of the prior status (including re-entering
the same status), it updates the appointment status and appends exactly one
StatusLog entry recording the new status and the acting user, so the
StatusLog count for that appointment increases by exactly one. -/
theorem setStatus_contract (s : State) (id : Nat) (st : Status) (tok : TokenPayload) :
    (s.appointments.find? (fun a => a.id == id) = none →
      (setStatusOp s id st tok).1 = none ∧ (setStatusOp s id st tok).2 = s)
    ∧ (∀ apt, s.appointments.find? (fun a => a.id == id) = some apt →
      (setStatusOp s id st tok).1 = some { apt with status := st }
      ∧ (setStatusOp s id st tok).2.appointments =
          (s.appointments.map (fun a => if a.id == id then { a with status := st } else a))
      ∧ (setStatusOp s id st tok).2.statusLogs =
          s.statusLogs ++ [⟨id, st, resolveActor tok⟩]
      ∧ logCount (setStatusOp s id st tok).2.statusLogs id
          = logCount s.statusLogs id + 1) := by
  constructor
  · intro h
    simp [setStatusOp, h]
  · intro apt h
    refine ⟨by simp [setStatusOp, h], by simp [setStatusOp, h],
      by simp [setStatusOp, h], ?_⟩
    simp [setStatusOp, h, logCount, List.filter_append]

/-- Witness for C5: a concrete state with one scheduled appointment; setting
the status to confirmada appends exactly one log row. -/
theorem setStatus_contract_witness :
    (setStatusOp
        ⟨[], [], [⟨1, 1, 1, 0, 10, Status.agendada, none⟩], [], 2⟩
        1 Status.confirmada ⟨"ana", "admin", none, none⟩).1
      = some ⟨1, 1, 1, 0, 10, Status.confirmada, none⟩
    ∧ logCount (setStatusOp
        ⟨[], [], [⟨1, 1, 1, 0, 10, Status.agendada, none⟩], [], 2⟩
        1 Status.confirmada ⟨"ana", "admin", none, none⟩).2.statusLogs 1
      = logCount ([] : List StatusLog) 1 + 1 := by
  have h := (setStatus_contract
      ⟨[], [], [⟨1, 1, 1, 0, 10, Status.agendada, none⟩], [], 2⟩
      1 Status.confirmada ⟨"ana", "admin", none, none⟩).2
      ⟨1, 1, 1, 0, 10, Status.agendada, none⟩ (by decide)
  exact ⟨h.1, h.2.2.2⟩

/-- Claim C6: DELETE /appointments/:id is equivalent to
setStatus(id, cancelada): the two operations produce identical resulting
states (status set to cancelada, one cancelada StatusLog row appended with
the same actor), both fail on exactly the missing-appointment states, and
the appointment row is never physically deleted (the list of appointment
ids is preserved). -/
theorem cancel_equiv_setStatus (s : State) (id : Nat) (tok : TokenPayload) :
    (cancelOp s id tok).2 = (setStatusOp s id Status.cancelada tok).2
    ∧ ((cancelOp s id tok).1 = false ↔
        s.appointments.find? (fun a => a.id == id) = none)
    ∧ ((setStatusOp s id Status.cancelada tok).1 = none ↔
        s.appointments.find? (fun a => a.id == id) = none)
    ∧ ((cancelOp s id tok).2.appointments.map (fun a => a.id))
        = (s.appointments.map (fun a => a.id))
    ∧ (cancelOp s id tok).2.statusLogs =
        (if (s.appointments.find? (fun a => a.id == id)).isSome
         then s.statusLogs ++ [⟨id, Status.cancelada, resolveActor tok⟩]
         else s.statusLogs) := by
  cases h : s.appointments.find? (fun a => a.id == id) with
  | none =>
    simp [cancelOp, setStatusOp, h]
  | some apt =>
    refine ⟨by simp [cancelOp, setStatusOp, h], by simp [cancelOp, h],
      by simp [setStatusOp, h], ?_, by simp [cancelOp, h]⟩
    simp only [cancelOp, h, List.map_map]
    refine List.map_congr_left ?_
    intro a _
    by_cases ha : a.id = id
    · simp [Function.comp, ha]
    · simp [Function.comp, ha]

/-- Claim C7: every StatusLog write of the three mutating appointment
handlers records as actor the token userId when present and truthy, and the
default actor id 1 otherwise; login-issued tokens place the user id in the
sub claim and carry no userId field, so under them every StatusLog entry
records actor id 1. -/
theorem statusLog_actor_default (u : User) (tok : TokenPayload) (s : State)
    (id : Nat) (st : Status) (pid did : Nat) (a b : Int) (obs : Option String) :
    (loginTokenPayload u).userId = none
    ∧ resolveActor (loginTokenPayload u) = 1
    ∧ (∀ n, tok.userId = some n → n ≠ 0 → resolveActor tok = n)
    ∧ ((tok.userId = none ∨ tok.userId = some 0) → resolveActor tok = 1)
    ∧ ((setStatusOp s id st tok).2.statusLogs =
        (if (s.appointments.find? (fun x => x.id == id)).isSome
         then s.statusLogs ++ [⟨id, st, resolveActor tok⟩] else s.statusLogs))
    ∧ ((cancelOp s id tok).2.statusLogs =
        (if (s.appointments.find? (fun x => x.id == id)).isSome
         then s.statusLogs ++ [⟨id, Status.cancelada, resolveActor tok⟩]
         else s.statusLogs))
    ∧ ((createAppointment s pid did a b obs tok).2.statusLogs =
        (if patientActive s pid && dentistActive s did
            && !hasConflict s.appointments did a b none
         then s.statusLogs ++ [⟨s.nextAppointmentId, Status.agendada, resolveActor tok⟩]
         else s.statusLogs)) := by
  refine ⟨rfl, rfl, ?_, ?_, ?_, ?_, ?_⟩
  · intro n hn hne
    simp [resolveActor, hn, hne]
  · rintro (h | h) <;> simp [resolveActor, h]
  · cases h : s.appointments.find? (fun x => x.id == id) <;> simp [setStatusOp, h]
  · cases h : s.appointments.find? (fun x => x.id == id) <;> simp [cancelOp, h]
  · cases hp : patientActive s pid <;> cases hd : dentistActive s did <;>
      cases hc : hasConflict s.appointments did a b none <;>
      simp [createAppointment, hp, hd, hc]

/-- Witness for C7: a token whose userId field is 7 resolves to actor 7, a
login-issued token resolves to actor 1, and a concrete setStatus call under
a login token appends a log row with actor id 1. -/
theorem statusLog_actor_default_witness :
    resolveActor ⟨"ana", "admin", none, some 7⟩ = 7
    ∧ resolveActor (loginTokenPayload ⟨3, "ana", "a", "h", "admin", true⟩) = 1
    ∧ (setStatusOp ⟨[], [], [⟨1, 1, 1, 0, 10, Status.agendada, none⟩], [], 2⟩
        1 Status.concluida
        (loginTokenPayload ⟨3, "ana", "a", "h", "admin", true⟩)).2.statusLogs
      = [⟨1, Status.concluida, 1⟩] := by
  have h1 := (statusLog_actor_default ⟨3, "ana", "a", "h", "admin", true⟩
      ⟨"ana", "admin", none, some 7⟩
      ⟨[], [], [⟨1, 1, 1, 0, 10, Status.agendada, none⟩], [], 2⟩
      1 Status.concluida 1 1 0 10 none).2.2.1 7 rfl (by decide)
  have h2 := (statusLog_actor_default ⟨3, "ana", "a", "h", "admin", true⟩
      (loginTokenPayload ⟨3, "ana", "a", "h", "admin", true⟩)
      ⟨[], [], [⟨1, 1, 1, 0, 10, Status.agendada, none⟩], [], 2⟩
      1 Status.concluida 1 1 0 10 none)
  refine ⟨h1, h2.2.1, ?_⟩
  have h3 := h2.2.2.2.2.1
  simpa using h3

/-- Claim C4: POST /appointments fails with NotFound when the patient or
dentist is missing or inactive, fails with Conflict when the conflict query
finds an overlapping non-cancelled appointment of the dentist, and
otherwise persists one new appointment in status agendada and appends one
StatusLog entry with status agendada; on every failure path the state is
completely unchanged. -/
theorem create_contract (s : State) (pid did : Nat) (a b : Int)
    (obs : Option String) (tok : TokenPayload) :
    (patientActive s pid = false →
      (createAppointment s pid did a b obs tok).1
        = CreateOutcome.notFound "Paciente não encontrado"
      ∧ (createAppointment s pid did a b obs tok).2 = s)
    ∧ (patientActive s pid = true → dentistActive s did = false →
      (createAppointment s pid did a b obs tok).1
        = CreateOutcome.notFound "Dentista não encontrado"
      ∧ (createAppointment s pid did a b obs tok).2 = s)
    ∧ (patientActive s pid = true → dentistActive s did = true →
      hasConflict s.appointments did a b none = true →
      (createAppointment s pid did a b obs tok).1
        = CreateOutcome.conflict "Dentista já possui consulta neste horário"
      ∧ (createAppointment s pid did a b obs tok).2 = s)
    ∧ (patientActive s pid = true → dentistActive s did = true →
      hasConflict s.appointments did a b none = false →
      (createAppointment s pid did a b obs tok).1
        = CreateOutcome.created s.nextAppointmentId
      ∧ (createAppointment s pid did a b obs tok).2.appointments
        = s.appointments ++ [⟨s.nextAppointmentId, pid, did, a, b, Status.agendada, obs⟩]
      ∧ (createAppointment s pid did a b obs tok).2.statusLogs
        = s.statusLogs ++ [⟨s.nextAppointmentId, Status.agendada, resolveActor tok⟩]
      ∧ (createAppointment s pid did a b obs tok).2.patients = s.patients
      ∧ (createAppointment s pid did a b obs tok).2.dentists = s.dentists) := by
  refine ⟨?_, ?_, ?_, ?_⟩
  · intro hp
    simp [createAppointment, hp]
  · intro hp hd
    simp [createAppointment, hp, hd]
  · intro hp hd hc
    simp [createAppointment, hp, hd, hc]
  · intro hp hd hc
    refine ⟨?_, ?_, ?_, ?_, ?_⟩ <;>
      simp [createAppointment, hp, hd, hc, defaultAppointmentStatus]

/-- Witness for C4: the success path on a concrete state with one active
patient, one active dentist and an empty calendar. -/
theorem create_contract_witness :
    (createAppointment
        ⟨[⟨1, "p", none, none, none, none, true⟩],
         [⟨1, "d", "cro1", none, none, none, true⟩], [], [], 1⟩
        1 1 0 10 none ⟨"ana", "admin", none, none⟩).1
      = CreateOutcome.created 1
    ∧ (createAppointment
        ⟨[⟨1, "p", none, none, none, none, true⟩],
         [⟨1, "d", "cro1", none, none, none, true⟩], [], [], 1⟩
        1 1 0 10 none ⟨"ana", "admin", none, none⟩).2.statusLogs
      = [⟨1, Status.agendada, 1⟩] := by
  have h := (create_contract
      ⟨[⟨1, "p", none, none, none, none, true⟩],
       [⟨1, "d", "cro1", none, none, none, true⟩], [], [], 1⟩
      1 1 0 10 none ⟨"ana", "admin", none, none⟩).2.2.2
      (by decide) (by decide) (by decide)
  refine ⟨h.1, ?_⟩
  have h2 := h.2.2.1
  simpa using h2

theorem find?_map_update_patient (l : List Patient) (pid : Nat) (p : Patient)
    (g : Patient → Patient) (hg : ∀ q, (g q).id = q.id)
    (h : l.find? (fun q => q.id == pid) = some p) :
    (l.map (fun q => if q.id == pid then g q else q)).find? (fun q => q.id == pid)
      = some (g p) := by
  induction l with
  | nil => simp at h
  | cons hd tl ih =>
    by_cases hh : (hd.id == pid) = true
    · rw [List.find?_cons, hh] at h
      simp only [Option.some.injEq] at h
      subst h
      rw [List.map_cons, if_pos hh, List.find?_cons]
      have hgid : ((g hd).id == pid) = true := by rw [hg hd]; exact hh
      rw [hgid]
    · have hh' : (hd.id == pid) = false := by
        simpa using hh
      rw [List.find?_cons, hh'] at h
      rw [List.map_cons, if_neg hh, List.find?_cons, hh']
      exact ih h

/-- Claim C8: soft-deleting an existing patient sets only its ativo flag to
false: afterwards GET /patients/:id returns NotFound, the patient row
persists with every other field unchanged, the appointment table is
untouched, and GET /appointments/:id for an appointment referencing that
patient still returns the appointment together with the patient's data. -/
theorem soft_delete_patient (s : State) (pid : Nat) (p : Patient)
    (aid : Nat) (apt : Appointment)
    (hp : s.patients.find? (fun q => q.id == pid) = some p)
    (ha : s.appointments.find? (fun x => x.id == aid) = some apt)
    (hpa : apt.pacienteId = pid) :
    (deletePatientOp s pid).1 = true
    ∧ getPatientOp (deletePatientOp s pid).2 pid = GetPatientOutcome.notFound
    ∧ (deletePatientOp s pid).2.patients.find? (fun q => q.id == pid)
        = some { p with ativo := false }
    ∧ (deletePatientOp s pid).2.appointments = s.appointments
    ∧ getAppointmentOp (deletePatientOp s pid).2 aid
        = some { appointment := apt,
                 paciente := some { p with ativo := false },
                 dentista := (deletePatientOp s pid).2.dentists.find?
                   (fun den => den.id == apt.dentistaId),
                 logs := (deletePatientOp s pid).2.statusLogs.filter
                   (fun lg => lg.consultaId == apt.id) } := by
  have hfind : (deletePatientOp s pid).2.patients.find? (fun q => q.id == pid)
      = some { p with ativo := false } := by
    simp only [deletePatientOp, hp]
    exact find?_map_update_patient s.patients pid p
      (fun q => { q with ativo := false }) (fun q => rfl) hp
  refine ⟨?_, ?_, hfind, ?_, ?_⟩
  · simp [deletePatientOp, hp]
  · simp [getPatientOp, hfind]
  · simp [deletePatientOp, hp]
  · have happts : (deletePatientOp s pid).2.appointments = s.appointments := by
      simp [deletePatientOp, hp]
    simp only [getAppointmentOp, happts, ha, hpa, hfind]

/-- Witness for C8: one active patient with an appointment; after the soft
delete the patient lookup 404s but the appointment lookup still includes
the (now inactive) patient row. -/
theorem soft_delete_patient_witness :
    getPatientOp (deletePatientOp
        ⟨[⟨1, "p", none, none, none, none, true⟩], [],
         [⟨1, 1, 1, 0, 10, Status.agendada, none⟩], [], 2⟩ 1).2 1
      = GetPatientOutcome.notFound
    ∧ getAppointmentOp (deletePatientOp
        ⟨[⟨1, "p", none, none, none, none, true⟩], [],
         [⟨1, 1, 1, 0, 10, Status.agendada, none⟩], [], 2⟩ 1).2 1
      = some { appointment := ⟨1, 1, 1, 0, 10, Status.agendada, none⟩,
               paciente := some ⟨1, "p", none, none, none, none, false⟩,
               dentista := none, logs := [] } := by
  have h := soft_delete_patient
      ⟨[⟨1, "p", none, none, none, none, true⟩], [],
       [⟨1, 1, 1, 0, 10, Status.agendada, none⟩], [], 2⟩
      1 ⟨1, "p", none, none, none, none, true⟩
      1 ⟨1, 1, 1, 0, 10, Status.agendada, none⟩
      (by decide) (by decide) (by decide)
  refine ⟨h.2.1, ?_⟩
  have h2 := h.2.2.2.2
  simpa using h2

/-- Claim C9: PUT /appointments/:id never verifies that a supplied
pacienteId (or dentistaId) refers to an existing active row: updating an
existing appointment to reference an inactive patient succeeds and returns
the updated appointment, while POST /appointments with the same patient
fails with NotFound; for an existing appointment the only failing outcome
of update is the overlap conflict, and that is possible only when
dentistaId, dataHoraInicio or dataHoraFim is present in the body. -/
theorem update_skips_reference_checks (s : State) (id : Nat) (apt : Appointment)
    (p : Patient) (tok : TokenPayload) (did2 : Nat) (a b : Int)
    (obs : Option String) (d : UpdateData)
    (ha : s.appointments.find? (fun x => x.id == id) = some apt)
    (hp : s.patients.find? (fun q => q.id == p.id) = some p)
    (hinactive : p.ativo = false) :
    (updateOp s id ⟨some p.id, none, none, none, none⟩).1
        = UpdateOutcome.ok { apt with pacienteId := p.id }
    ∧ (createAppointment s p.id did2 a b obs tok).1
        = CreateOutcome.notFound "Paciente não encontrado"
    ∧ (createAppointment s p.id did2 a b obs tok).2 = s
    ∧ ((updateOp s id d).1 = UpdateOutcome.conflict →
        d.dataHoraInicio.isSome ∨ d.dataHoraFim.isSome ∨ d.dentistaId.isSome)
    ∧ (updateOp s id d).1 ≠ UpdateOutcome.notFound := by
  have hpa : patientActive s p.id = false := by
    simp [patientActive, hp, hinactive]
  refine ⟨?_, ?_, ?_, ?_, ?_⟩
  · simp [updateOp, ha, shouldCheckConflict, numTruthy, applyUpdate]
  · simp [createAppointment, hpa]
  · simp [createAppointment, hpa]
  · intro hconf
    by_cases hq : d.dataHoraInicio.isSome
    · exact Or.inl hq
    by_cases hf : d.dataHoraFim.isSome
    · exact Or.inr (Or.inl hf)
    by_cases hdd : d.dentistaId.isSome
    · exact Or.inr (Or.inr hdd)
    exfalso
    have hnone1 : d.dataHoraInicio = none := Option.not_isSome_iff_eq_none.mp hq
    have hnone2 : d.dataHoraFim = none := Option.not_isSome_iff_eq_none.mp hf
    have hnone3 : d.dentistaId = none := Option.not_isSome_iff_eq_none.mp hdd
    have hscf : shouldCheckConflict d = false := by
      simp [shouldCheckConflict, hnone1, hnone2, hnone3, numTruthy]
    simp [updateOp, ha, hscf] at hconf
  · intro hnf
    simp only [updateOp, ha] at hnf
    by_cases hsc : (shouldCheckConflict d
        && hasConflict s.appointments (orElseNum d.dentistaId apt.dentistaId)
          (d.dataHoraInicio.getD apt.dataHoraInicio)
          (d.dataHoraFim.getD apt.dataHoraFim) (some id)) = true
    · rw [if_pos hsc] at hnf
      simp at hnf
    · rw [if_neg (by simpa using hsc)] at hnf
      simp at hnf

/-- Witness for C9: a state with one appointment and one inactive patient;
the update referencing the inactive patient succeeds while the create
referencing it 404s, and a body carrying only pacienteId can never produce
a conflict. -/
theorem update_skips_reference_checks_witness :
    (updateOp ⟨[⟨2, "p", none, none, none, none, false⟩], [],
        [⟨1, 1, 1, 0, 10, Status.agendada, none⟩], [], 2⟩
        1 ⟨some 2, none, none, none, none⟩).1
      = UpdateOutcome.ok ⟨1, 2, 1, 0, 10, Status.agendada, none⟩
    ∧ (createAppointment ⟨[⟨2, "p", none, none, none, none, false⟩], [],
        [⟨1, 1, 1, 0, 10, Status.agendada, none⟩], [], 2⟩
        2 1 20 30 none ⟨"ana", "admin", none, none⟩).1
      = CreateOutcome.notFound "Paciente não encontrado" := by
  have h := update_skips_reference_checks
      ⟨[⟨2, "p", none, none, none, none, false⟩], [],
       [⟨1, 1, 1, 0, 10, Status.agendada, none⟩], [], 2⟩
      1 ⟨1, 1, 1, 0, 10, Status.agendada, none⟩
      ⟨2, "p", none, none, none, none, false⟩
      ⟨"ana", "admin", none, none⟩ 1 20 30 none
      ⟨some 2, none, none, none, none⟩
      (by decide) (by decide) (by decide)
  exact ⟨h.1, h.2.1⟩

theorem overlapPair_left_cancelada (x y : Appointment)
    (h : x.status = Status.cancelada) : overlapPair x y = false := by
  simp [overlapPair, h]

theorem overlapPair_right_cancelada (x y : Appointment)
    (h : y.status = Status.cancelada) : overlapPair x y = false := by
  simp [overlapPair, h]

theorem invariantB_set_cancelada (l : List Appointment) (id : Nat)
    (hInv : invariantB l = true) :
    invariantB (l.map
      (fun a => if a.id == id then { a with status := Status.cancelada } else a)) = true := by
  rw [invariantB_iff] at hInv ⊢
  intro x hx y hy hne
  rw [List.mem_map] at hx hy
  obtain ⟨x0, hx0, rfl⟩ := hx
  obtain ⟨y0, hy0, rfl⟩ := hy
  by_cases hxi : (x0.id == id) = true
  · rw [if_pos hxi]
    exact overlapPair_left_cancelada _ _ rfl
  · rw [if_neg hxi]
    by_cases hyi : (y0.id == id) = true
    · rw [if_pos hyi]
      exact overlapPair_right_cancelada _ _ rfl
    · rw [if_neg hyi]
      rw [if_neg hxi, if_neg hyi] at hne
      exact hInv x0 hx0 y0 hy0 hne

theorem matchesConflict_false_of_no_conflict (l : List Appointment) (did : Nat)
    (a b : Int) (excl : Option Nat) (y : Appointment)
    (hnc : hasConflict l did a b excl = false) (hy : y ∈ l) :
    matchesConflict did a b excl y = false := by
  rw [hasConflict, List.any_eq_false] at hnc
  simpa using hnc y hy

theorem no_conflict_overlapPair (l : List Appointment) (n y : Appointment)
    (hnc : hasConflict l n.dentistaId n.dataHoraInicio n.dataHoraFim none = false)
    (hy : y ∈ l) :
    overlapPair y n = false ∧ overlapPair n y = false := by
  have hm := matchesConflict_false_of_no_conflict l n.dentistaId n.dataHoraInicio
    n.dataHoraFim none y hnc hy
  constructor
  · cases hp : overlapPair y n with
    | false => rfl
    | true =>
      exfalso
      simp only [overlapPair, Bool.and_eq_true, decide_eq_true_eq] at hp
      obtain ⟨⟨⟨hdid, hys⟩, hns⟩, hov⟩ := hp
      rw [overlapSpec_comm] at hov
      have hq := overlapSpec_imp_overlapQ _ _ _ _ hov
      have hmt : matchesConflict n.dentistaId n.dataHoraInicio n.dataHoraFim none y
          = true := by
        simp only [matchesConflict, Bool.and_eq_true, decide_eq_true_eq]
        exact ⟨⟨⟨trivial, hdid⟩, hys⟩, hq⟩
      rw [hmt] at hm
      simp at hm
  · cases hp : overlapPair n y with
    | false => rfl
    | true =>
      exfalso
      simp only [overlapPair, Bool.and_eq_true, decide_eq_true_eq] at hp
      obtain ⟨⟨⟨hdid, hns⟩, hys⟩, hov⟩ := hp
      have hq := overlapSpec_imp_overlapQ _ _ _ _ hov
      have hmt : matchesConflict n.dentistaId n.dataHoraInicio n.dataHoraFim none y
          = true := by
        simp only [matchesConflict, Bool.and_eq_true, decide_eq_true_eq]
        exact ⟨⟨⟨trivial, hdid.symm⟩, hys⟩, hq⟩
      rw [hmt] at hm
      simp at hm

theorem invariantB_append_new (l : List Appointment) (n : Appointment)
    (hInv : invariantB l = true)
    (hnc : hasConflict l n.dentistaId n.dataHoraInicio n.dataHoraFim none = false) :
    invariantB (l ++ [n]) = true := by
  rw [invariantB_iff] at hInv ⊢
  intro x hx y hy hne
  rw [List.mem_append, List.mem_singleton] at hx hy
  rcases hx with hx | rfl
  · rcases hy with hy | rfl
    · exact hInv x hx y hy hne
    · exact (no_conflict_overlapPair l y x hnc hx).1
  · rcases hy with hy | rfl
    · exact (no_conflict_overlapPair l x y hnc hy).2
    · exact absurd rfl hne

theorem eq_of_mem_find?_nodup (l : List Appointment) (id : Nat) (apt x : Appointment)
    (hfind : l.find? (fun a => a.id == id) = some apt)
    (hnd : (l.map Appointment.id).Nodup)
    (hx : x ∈ l) (hxid : x.id = id) : x = apt := by
  induction l with
  | nil => simp at hx
  | cons hd tl ih =>
    have hnd2 : (tl.map Appointment.id).Nodup := (List.nodup_cons.mp hnd).2
    by_cases hh : (hd.id == id) = true
    · rw [List.find?_cons, hh] at hfind
      simp only [Option.some.injEq] at hfind
      subst hfind
      rcases List.mem_cons.mp hx with rfl | hx2
      · rfl
      · exfalso
        have hid : hd.id = id := by simpa using hh
        have hnotin : hd.id ∉ tl.map Appointment.id := (List.nodup_cons.mp hnd).1
        exact hnotin (by
          rw [hid, ← hxid]
          exact List.mem_map_of_mem Appointment.id hx2)
    · have hh2 : (hd.id == id) = false := by simpa using hh
      rw [List.find?_cons, hh2] at hfind
      rcases List.mem_cons.mp hx with rfl | hx2
      · exfalso
        rw [hxid] at hh2
        simp at hh2
      · exact ih hfind hnd2 hx2

theorem shouldCheck_false_fields (d : UpdateData)
    (h : shouldCheckConflict d = false) (hd0 : d.dentistaId ≠ some 0) :
    d.dataHoraInicio = none ∧ d.dataHoraFim = none ∧ d.dentistaId = none := by
  refine ⟨?_, ?_, ?_⟩
  · cases h1 : d.dataHoraInicio with
    | none => rfl
    | some v =>
      exfalso
      rw [shouldCheckConflict, h1] at h
      simp at h
  · cases h2 : d.dataHoraFim with
    | none => rfl
    | some v =>
      exfalso
      rw [shouldCheckConflict, h2] at h
      simp at h
  · cases h3 : d.dentistaId with
    | none => rfl
    | some n =>
      exfalso
      have hn : n ≠ 0 := fun he => hd0 (by rw [h3, he])
      rw [shouldCheckConflict, h3] at h
      simp [numTruthy, hn] at h

theorem overlapPair_applyUpdate_nochange (d : UpdateData) (a y : Appointment)
    (h1 : d.dentistaId = none) (h2 : d.dataHoraInicio = none)
    (h3 : d.dataHoraFim = none) :
    overlapPair (applyUpdate d a) y = overlapPair a y
    ∧ overlapPair y (applyUpdate d a) = overlapPair y a := by
  constructor <;> simp [overlapPair, applyUpdate, h1, h2, h3]

theorem applyUpdate_dentistaId_eq_orElseNum (d : UpdateData) (apt : Appointment)
    (hd0 : d.dentistaId ≠ some 0) :
    (applyUpdate d apt).dentistaId = orElseNum d.dentistaId apt.dentistaId := by
  cases hdd : d.dentistaId with
  | none => simp [applyUpdate, orElseNum, hdd]
  | some n =>
    have hn : n ≠ 0 := fun he => hd0 (by rw [hdd, he])
    simp [applyUpdate, orElseNum, hdd, hn]

theorem update_no_conflict_pair (l : List Appointment) (id : Nat)
    (apt y : Appointment) (d : UpdateData) (hd0 : d.dentistaId ≠ some 0)
    (hnc : hasConflict l (orElseNum d.dentistaId apt.dentistaId)
      (d.dataHoraInicio.getD apt.dataHoraInicio)
      (d.dataHoraFim.getD apt.dataHoraFim) (some id) = false)
    (hy : y ∈ l) (hyne : y.id ≠ id) :
    overlapPair (applyUpdate d apt) y = false
    ∧ overlapPair y (applyUpdate d apt) = false := by
  have hm := matchesConflict_false_of_no_conflict l
    (orElseNum d.dentistaId apt.dentistaId)
    (d.dataHoraInicio.getD apt.dataHoraInicio)
    (d.dataHoraFim.getD apt.dataHoraFim) (some id) y hnc hy
  have hdid := applyUpdate_dentistaId_eq_orElseNum d apt hd0
  have hui : (applyUpdate d apt).dataHoraInicio
      = d.dataHoraInicio.getD apt.dataHoraInicio := rfl
  have huf : (applyUpdate d apt).dataHoraFim
      = d.dataHoraFim.getD apt.dataHoraFim := rfl
  constructor
  · cases hp : overlapPair (applyUpdate d apt) y with
    | false => rfl
    | true =>
      exfalso
      simp only [overlapPair, Bool.and_eq_true, decide_eq_true_eq] at hp
      obtain ⟨⟨⟨hd1, hus⟩, hys⟩, hov⟩ := hp
      rw [hui, huf] at hov
      have hq := overlapSpec_imp_overlapQ _ _ _ _ hov
      have hmt : matchesConflict (orElseNum d.dentistaId apt.dentistaId)
          (d.dataHoraInicio.getD apt.dataHoraInicio)
          (d.dataHoraFim.getD apt.dataHoraFim) (some id) y = true := by
        simp only [matchesConflict, Bool.and_eq_true, decide_eq_true_eq]
        refine ⟨⟨⟨?_, ?_⟩, hys⟩, hq⟩
        · simpa using hyne
        · rw [← hd1, hdid]
      rw [hmt] at hm
      simp at hm
  · cases hp : overlapPair y (applyUpdate d apt) with
    | false => rfl
    | true =>
      exfalso
      simp only [overlapPair, Bool.and_eq_true, decide_eq_true_eq] at hp
      obtain ⟨⟨⟨hd1, hys⟩, hus⟩, hov⟩ := hp
      rw [overlapSpec_comm, hui, huf] at hov
      have hq := overlapSpec_imp_overlapQ _ _ _ _ hov
      have hmt : matchesConflict (orElseNum d.dentistaId apt.dentistaId)
          (d.dataHoraInicio.getD apt.dataHoraInicio)
          (d.dataHoraFim.getD apt.dataHoraFim) (some id) y = true := by
        simp only [matchesConflict, Bool.and_eq_true, decide_eq_true_eq]
        refine ⟨⟨⟨?_, ?_⟩, hys⟩, hq⟩
        · simpa using hyne
        · rw [hd1, hdid]
      rw [hmt] at hm
      simp at hm

theorem invariantB_update (l : List Appointment) (id : Nat) (apt : Appointment)
    (d : UpdateData)
    (hfind : l.find? (fun a => a.id == id) = some apt)
    (hnd : (l.map Appointment.id).Nodup)
    (hd0 : d.dentistaId ≠ some 0)
    (hInv : invariantB l = true)
    (hok : shouldCheckConflict d = false ∨
      hasConflict l (orElseNum d.dentistaId apt.dentistaId)
        (d.dataHoraInicio.getD apt.dataHoraInicio)
        (d.dataHoraFim.getD apt.dataHoraFim) (some id) = false) :
    invariantB (l.map (fun a => if a.id == id then applyUpdate d a else a)) = true := by
  have hapt_mem : apt ∈ l := List.mem_of_find?_eq_some hfind
  have hapt_id : apt.id = id := by simpa using List.find?_some hfind
  rw [invariantB_iff] at hInv ⊢
  intro x hx y hy hne
  rw [List.mem_map] at hx hy
  obtain ⟨x0, hx0, rfl⟩ := hx
  obtain ⟨y0, hy0, rfl⟩ := hy
  have hid_f : ∀ a : Appointment,
      (if (a.id == id) = true then applyUpdate d a else a).id = a.id := by
    intro a
    by_cases h : (a.id == id) = true
    · rw [if_pos h]
      rfl
    · rw [if_neg h]
  have hne0 : x0.id ≠ y0.id := by
    rw [hid_f x0, hid_f y0] at hne
    exact hne
  by_cases hxi : (x0.id == id) = true
  · have hx0id : x0.id = id := by simpa using hxi
    have hx0apt : x0 = apt := eq_of_mem_find?_nodup l id apt x0 hfind hnd hx0 hx0id
    have hy0ne : y0.id ≠ id := by
      rw [← hx0id]
      exact fun h => hne0 h.symm
    have hyi : (y0.id == id) = false := beq_eq_false_iff_ne.mpr hy0ne
    rw [if_pos hxi, if_neg (by simp [hyi]), hx0apt]
    rcases hok with hsc | hnc
    · obtain ⟨e1, e2, e3⟩ := shouldCheck_false_fields d hsc hd0
      rw [(overlapPair_applyUpdate_nochange d apt y0 e3 e1 e2).1]
      refine hInv apt hapt_mem y0 hy0 ?_
      rw [hapt_id]
      exact fun h => hy0ne h.symm
    · exact (update_no_conflict_pair l id apt y0 d hd0 hnc hy0 hy0ne).1
  · by_cases hyi : (y0.id == id) = true
    · have hy0id : y0.id = id := by simpa using hyi
      have hy0apt : y0 = apt := eq_of_mem_find?_nodup l id apt y0 hfind hnd hy0 hy0id
      have hx0ne : x0.id ≠ id := by simpa using hxi
      rw [if_neg hxi, if_pos hyi, hy0apt]
      rcases hok with hsc | hnc
      · obtain ⟨e1, e2, e3⟩ := shouldCheck_false_fields d hsc hd0
        rw [(overlapPair_applyUpdate_nochange d apt x0 e3 e1 e2).2]
        refine hInv x0 hx0 apt hapt_mem ?_
        rw [hapt_id]
        exact hx0ne
      · exact (update_no_conflict_pair l id apt x0 d hd0 hnc hx0 hx0ne).2
    · rw [if_neg hxi, if_neg hyi]
      exact hInv x0 hx0 y0 hy0 hne0

/-- Counterexample for C2: a conflict-free state (one scheduled appointment
and one cancelled appointment of the same dentist over the same interval)
in which a single setStatus call moving the cancelled appointment back to
agendada runs no conflict check and produces a state with two overlapping
non-cancelled appointments of the same dentist, violating the invariant. -/
theorem setStatus_breaks_invariant_counterexample :
    invariantB [⟨1, 1, 1, 0, 10, Status.agendada, none⟩,
                ⟨2, 1, 1, 0, 10, Status.cancelada, none⟩] = true
    ∧ invariantB ((setStatusOp
        ⟨[], [], [⟨1, 1, 1, 0, 10, Status.agendada, none⟩,
                  ⟨2, 1, 1, 0, 10, Status.cancelada, none⟩], [], 3⟩
        2 Status.agendada ⟨"ana", "admin", none, none⟩).2).appointments = false := by
  constructor <;> decide

/-- Claim C2 (amended): from a conflict-free state with unique appointment
ids, the operations create, update (for a body that does not carry the
JS-falsy dentist id 0), cancel, and setStatus with target status cancelada
all preserve the no-overlap invariant; setStatus to a non-cancelled status,
however, runs no conflict check and can violate it (see the
counterexample), so the invariant is not preserved by arbitrary operation
sequences. -/
theorem lifecycle_preserves_invariant (s : State) (pid did id idu idc : Nat)
    (a b : Int) (obs : Option String) (tok tok2 tok3 : TokenPayload)
    (d : UpdateData)
    (hInv : invariantB s.appointments = true)
    (hnd : (s.appointments.map Appointment.id).Nodup)
    (hd0 : d.dentistaId ≠ some 0) :
    invariantB (createAppointment s pid did a b obs tok).2.appointments = true
    ∧ invariantB (updateOp s id d).2.appointments = true
    ∧ invariantB (setStatusOp s idu Status.cancelada tok2).2.appointments = true
    ∧ invariantB (cancelOp s idc tok3).2.appointments = true := by
  refine ⟨?_, ?_, ?_, ?_⟩
  · cases hp : patientActive s pid with
    | false => simpa [createAppointment, hp] using hInv
    | true =>
      cases hdt : dentistActive s did with
      | false => simpa [createAppointment, hp, hdt] using hInv
      | true =>
        cases hc : hasConflict s.appointments did a b none with
        | true => simpa [createAppointment, hp, hdt, hc] using hInv
        | false =>
          have h2 : (createAppointment s pid did a b obs tok).2.appointments
              = s.appointments
                ++ [⟨s.nextAppointmentId, pid, did, a, b, Status.agendada, obs⟩] := by
            simp [createAppointment, hp, hdt, hc, defaultAppointmentStatus]
          rw [h2]
          exact invariantB_append_new s.appointments
            ⟨s.nextAppointmentId, pid, did, a, b, Status.agendada, obs⟩ hInv hc
  · cases hfind : s.appointments.find? (fun x => x.id == id) with
    | none => simpa [updateOp, hfind] using hInv
    | some apt =>
      by_cases hsc : (shouldCheckConflict d
          && hasConflict s.appointments (orElseNum d.dentistaId apt.dentistaId)
            (d.dataHoraInicio.getD apt.dataHoraInicio)
            (d.dataHoraFim.getD apt.dataHoraFim) (some id)) = true
      · simpa [updateOp, hfind, hsc] using hInv
      · have hsc2 : (shouldCheckConflict d
            && hasConflict s.appointments (orElseNum d.dentistaId apt.dentistaId)
              (d.dataHoraInicio.getD apt.dataHoraInicio)
              (d.dataHoraFim.getD apt.dataHoraFim) (some id)) = false := by
          simpa using hsc
        have h2 : (updateOp s id d).2.appointments
            = s.appointments.map (fun x => if x.id == id then applyUpdate d x else x) := by
          simp [updateOp, hfind, hsc2]
        rw [h2]
        exact invariantB_update s.appointments id apt d hfind hnd hd0 hInv
          (Bool.and_eq_false_iff.mp hsc2)
  · cases hfind : s.appointments.find? (fun x => x.id == idu) with
    | none => simpa [setStatusOp, hfind] using hInv
    | some apt =>
      have h2 : (setStatusOp s idu Status.cancelada tok2).2.appointments
          = s.appointments.map
            (fun x => if x.id == idu then { x with status := Status.cancelada } else x) := by
        simp [setStatusOp, hfind]
      rw [h2]
      exact invariantB_set_cancelada s.appointments idu hInv
  · cases hfind : s.appointments.find? (fun x => x.id == idc) with
    | none => simpa [cancelOp, hfind] using hInv
    | some apt =>
      have h2 : (cancelOp s idc tok3).2.appointments
          = s.appointments.map
            (fun x => if x.id == idc then { x with status := Status.cancelada } else x) := by
        simp [cancelOp, hfind]
      rw [h2]
      exact invariantB_set_cancelada s.appointments idc hInv

/-- Witness for the amended C2: a concrete conflict-free one-appointment
state on which all four safe operations indeed preserve the invariant. -/
theorem lifecycle_preserves_invariant_witness :
    invariantB (createAppointment
        ⟨[⟨1, "p", none, none, none, none, true⟩],
         [⟨1, "d", "cro1", none, none, none, true⟩],
         [⟨1, 1, 1, 0, 10, Status.agendada, none⟩], [], 2⟩
        1 1 20 30 none ⟨"ana", "admin", none, none⟩).2.appointments = true
    ∧ invariantB (updateOp
        ⟨[⟨1, "p", none, none, none, none, true⟩],
         [⟨1, "d", "cro1", none, none, none, true⟩],
         [⟨1, 1, 1, 0, 10, Status.agendada, none⟩], [], 2⟩
        1 ⟨none, none, some 40, some 50, none⟩).2.appointments = true
    ∧ invariantB (setStatusOp
        ⟨[⟨1, "p", none, none, none, none, true⟩],
         [⟨1, "d", "cro1", none, none, none, true⟩],
         [⟨1, 1, 1, 0, 10, Status.agendada, none⟩], [], 2⟩
        1 Status.cancelada ⟨"ana", "admin", none, none⟩).2.appointments = true
    ∧ invariantB (cancelOp
        ⟨[⟨1, "p", none, none, none, none, true⟩],
         [⟨1, "d", "cro1", none, none, none, true⟩],
         [⟨1, 1, 1, 0, 10, Status.agendada, none⟩], [], 2⟩
        1 ⟨"ana", "admin", none, none⟩).2.appointments = true :=
  lifecycle_preserves_invariant
    ⟨[⟨1, "p", none, none, none, none, true⟩],
     [⟨1, "d", "cro1", none, none, none, true⟩],
     [⟨1, 1, 1, 0, 10, Status.agendada, none⟩], [], 2⟩
    1 1 1 1 1 20 30 none ⟨"ana", "admin", none, none⟩ ⟨"ana", "admin", none, none⟩
    ⟨"ana", "admin", none, none⟩ ⟨none, none, some 40, some 50, none⟩
    (by decide) (by decide) (by decide)
